import Mathlib

/-!
# Verification of the V2X-Communication track/telemetry fusion engine

Shallow embedding of the fusion and V2X relevance logic of the
`V2X-Communication` repository, together with proofs about its behaviour.

The embedded code lives in:

* `src/simulation/sumo_to_detection.py` — `SumoToDetections` (coordinate
  mapper, world meters → top-down pixels);
* `src/preception/tracking_module.py` — `EnhancedTracker` (track/vehicle
  matching, vehicle history ledger, kinematics, V2X relevance filter);
* `src/preception/output_module.py` — `SumoOutputModule` (V2X message
  assembly and message-type classification).

Modelling conventions:

* Python floats are modelled as exact rationals (`ℚ`); `int(...)` is
  truncation toward zero (`pyint`).
* Python dictionaries are modelled as association lists in insertion order
  (first occurrence wins on lookup, updates keep the position of an
  existing key, new keys are appended at the end), matching `dict`
  iteration order.
* A Python expression that raises (`ZeroDivisionError`, unpacking `None`)
  is modelled by an `Option` result being `none`.
* `np.random.uniform(0, 100)` draws are modelled by an explicit oracle
  argument (`draws : ℕ → ℚ`) supplying the i-th draw of the loop.
-/

/-- Python `int(q)` on a float: truncation toward zero. -/
def pyint (q : ℚ) : ℤ := if q < 0 then -⌊-q⌋ else ⌊q⌋

/-! ## Coordinate mapper: `SumoToDetections` (`sumo_to_detection.py`) -/

/-- State of `SumoToDetections` as stored by `__init__`
    (`sumo_to_detection.py`, lines 16–26).  The constructor performs no
    validation of the world bounding box: it only stores its arguments. -/
structure SumoToDetections where
  world_bbox : Option (ℚ × ℚ × ℚ × ℚ)
  image_w : ℕ
  image_h : ℕ
  default_bbox_size_m : ℚ
  computed : Bool
deriving DecidableEq

/-- Embedding of `SumoToDetections.__init__(world_bbox, image_size, default_bbox_size_m)`:
    stores the fields and sets `_computed = False`.  It is a total
    function — there is no bounds check here, and the repository defines
    no `InvalidBoundsError` anywhere. -/
def SumoToDetections.init (world_bbox : Option (ℚ × ℚ × ℚ × ℚ))
    (image_size : ℕ × ℕ) (default_bbox_size_m : ℚ) : SumoToDetections :=
  { world_bbox := world_bbox
    image_w := image_size.1
    image_h := image_size.2
    default_bbox_size_m := default_bbox_size_m
    computed := false }

/-- Embedding of `SumoToDetections.world_to_pixel(x, y)` (lines 36–45).
    `none` models a raised exception: unpacking a `None` bounding box
    (`TypeError`), or a zero denominator (`ZeroDivisionError`). -/
def SumoToDetections.world_to_pixel (s : SumoToDetections) (x y : ℚ) :
    Option (ℤ × ℤ) :=
  match s.world_bbox with
  | none => none
  | some (xmin, ymin, xmax, ymax) =>
    if xmax - xmin = 0 ∨ ymax - ymin = 0 then none
    else
      let nx := (x - xmin) / (xmax - xmin)
      let ny := (y - ymin) / (ymax - ymin)
      some (pyint (nx * ((s.image_w : ℚ) - 1)),
            pyint ((1 - ny) * ((s.image_h : ℚ) - 1)))

/-! ## Enhanced tracker (`preception/tracking_module.py`) -/

/-- A SUMO vehicle telemetry dict `{id, x, y, speed, angle}` as consumed by
    `EnhancedTracker` (one entry of `sumo_vehicles`). -/
structure SumoVehicle where
  id : String
  x : ℚ
  y : ℚ
  speed : ℚ
  angle : ℚ
deriving DecidableEq

/-- The fields of a ByteTracker track read by the tracker module:
    `tlbr`, `track_id`, `score`, `cls` (optional attribute, default 1),
    `is_activated`, `tracklet_len`. -/
structure ByteTrack where
  tlbr : ℚ × ℚ × ℚ × ℚ
  track_id : ℕ
  score : ℚ
  cls : Option ℕ
  is_activated : Bool
  tracklet_len : ℕ
deriving DecidableEq

/-- Embedding of `EnhancedTracker.calculate_track_vehicle_distance`
    (lines 157–161).  The body is `np.random.uniform(0, 100)` — a
    placeholder that ignores both arguments; the random draw is modelled
    as the explicit argument `draw`. -/
def calculate_track_vehicle_distance (draw : ℚ) (track_center : ℚ × ℚ)
    (vehicle : SumoVehicle) : ℚ :=
  draw

/-- One iteration of the proximity loop in `match_track_to_sumo_vehicle`
    (lines 142–153): `if distance < best_distance and distance < 50`,
    starting from `best_match = None`, `best_distance = inf`. -/
def matchStep (best : Option (SumoVehicle × ℚ)) (vd : SumoVehicle × ℚ) :
    Option (SumoVehicle × ℚ) :=
  match best with
  | none => if vd.2 < 50 then some vd else none
  | some (bv, bd) => if vd.2 < bd ∧ vd.2 < 50 then some vd else some (bv, bd)

/-- The proximity ("geometric") half of `match_track_to_sumo_vehicle`:
    each vehicle's distance is a fresh random draw (`draws i` for the
    i-th vehicle), and the minimum draw under the fixed 50 threshold wins,
    earlier vehicles winning exact ties. -/
def proximity_match (draws : ℕ → ℚ) (track_center : ℚ × ℚ)
    (sumo_vehicles : List SumoVehicle) : Option SumoVehicle :=
  ((sumo_vehicles.enum.map
      (fun p => (p.2, calculate_track_vehicle_distance (draws p.1) track_center p.2))).foldl
    matchStep none).map Prod.fst

/-- Embedding of `EnhancedTracker.match_track_to_sumo_vehicle(track, sumo_vehicles)`
    (lines 124–155).  `mapping` is `self.track_to_sumo_mapping`.  The
    sticky branch: if the track id is mapped and a vehicle with the mapped
    id is present, return the first such vehicle; otherwise fall through to
    the proximity loop. -/
def match_track_to_sumo_vehicle (draws : ℕ → ℚ) (mapping : List (ℕ × String))
    (track : ByteTrack) (sumo_vehicles : List SumoVehicle) : Option SumoVehicle :=
  let track_center := ((track.tlbr.1 + track.tlbr.2.2.1) / 2,
                       (track.tlbr.2.1 + track.tlbr.2.2.2) / 2)
  let sticky : Option SumoVehicle :=
    match mapping.lookup track.track_id with
    | some sumo_id => sumo_vehicles.find? (fun v => v.id == sumo_id)
    | none => none
  match sticky with
  | some v => some v
  | none => proximity_match draws track_center sumo_vehicles

/-- One entry of `self.vehicle_history[track_id]`: the `state` dict built in
    `update_vehicle_history` (lines 193–199). -/
structure HistEntry where
  frame : ℕ
  position : ℚ × ℚ
  speed : ℚ
  angle : ℚ
  world_position : Option (ℚ × ℚ)
deriving DecidableEq

/-- The dict `self.vehicle_history`: a Python dict from track id to history list,
    as an association list in insertion order. -/
abbrev VehHist := List (ℕ × List HistEntry)

/-- The enhanced track dict built by
    `EnhancedTracker.create_enhanced_track_dict` (lines 101–122), possibly
    updated with SUMO data by `enhance_track_with_sumo`. -/
structure ETrack where
  track_id : ℕ
  bbox : ℚ × ℚ × ℚ × ℚ
  score : ℚ
  cls : ℕ
  center : ℚ × ℚ
  frame_count : ℕ
  is_confirmed : Bool
  track_len : ℕ
  sumo_id : Option String
  world_position : Option (ℚ × ℚ)
  speed : ℚ
  angle : ℚ
  acceleration : ℚ
  direction_vector : ℚ × ℚ
  has_sumo_data : Bool
deriving DecidableEq

/-- Embedding of `EnhancedTracker.create_enhanced_track_dict(track)` (lines 101–122):
    the dict as first created, before optional SUMO enrichment.  The
    telemetry fields are dictionary keys holding defaults (`None`, `0.0`),
    not object attributes. -/
def create_enhanced_track_dict (frame_count : ℕ) (track : ByteTrack) : ETrack :=
  match track.tlbr with
  | (x1, y1, x2, y2) =>
    { track_id := track.track_id
      bbox := (x1, y1, x2, y2)
      score := track.score
      cls := track.cls.getD 1
      center := ((x1 + x2) / 2, (y1 + y2) / 2)
      frame_count := frame_count
      is_confirmed := track.is_activated
      track_len := track.tracklet_len
      sumo_id := none
      world_position := none
      speed := 0
      angle := 0
      acceleration := 0
      direction_vector := (0, 0)
      has_sumo_data := false }

/-- Python `dict.__setitem__` on an association list: replace the value at the
    first occurrence of the key, else append the new key at the end
    (Python dict insertion-order semantics). -/
def setKey : VehHist → ℕ → List HistEntry → VehHist
  | [], k, v => [(k, v)]
  | p :: rest, k, v =>
    if p.1 = k then (k, v) :: rest else p :: setKey rest k v

/-- The per-track body of `update_vehicle_history` (lines 189–205):
    append the new state, then keep only the last 30 entries. -/
def history_push (h : List HistEntry) (e : HistEntry) : List HistEntry :=
  let h2 := h ++ [e]
  if 30 < h2.length then h2.drop (h2.length - 30) else h2

/-- The `state` dict recorded for a track (lines 193–199). -/
def trackState (frame_count : ℕ) (t : ETrack) : HistEntry :=
  { frame := frame_count
    position := t.center
    speed := t.speed
    angle := t.angle
    world_position := t.world_position }

/-- Embedding of `EnhancedTracker.update_vehicle_history(enhanced_tracks)`
    (lines 184–205), acting on the history dict. -/
def update_vehicle_history (frame_count : ℕ) (m : VehHist)
    (enhanced_tracks : List ETrack) : VehHist :=
  enhanced_tracks.foldl
    (fun m t =>
      setKey m t.track_id
        (history_push ((m.lookup t.track_id).getD []) (trackState frame_count t)))
    m

/-- Embedding of `EnhancedTracker.calculate_acceleration(track_id, current_speed)`
    (lines 163–177): `(current_speed - history[-1].speed) / 0.1` when the
    track has at least two history entries, else `0.0`. -/
def calculate_acceleration (m : VehHist) (track_id : ℕ) (current_speed : ℚ) : ℚ :=
  match m.lookup track_id with
  | none => 0
  | some history =>
    if history.length < 2 then 0
    else
      match history.getLast? with
      | none => 0
      | some prev => (current_speed - prev.speed) / (1 / 10)

/-- Python `math.sqrt(dx**2 + dy**2) <= d` as a Boolean on exact rationals
    (equivalent form without the square root; see
    `distLe_iff_sqrt_le`). -/
def distLe (p q : ℚ × ℚ) (d : ℚ) : Bool :=
  decide (0 ≤ d ∧ (p.1 - q.1) ^ 2 + (p.2 - q.2) ^ 2 ≤ d ^ 2)

/-- The loop body of `get_v2x_relevant_tracks` (lines 255–271), as the
    predicate deciding whether one history-dict entry is kept: skip the
    observer itself, skip empty histories, skip tracks whose latest entry
    has no world position, keep those within `max_distance`. -/
def relevantPred (ego : ℕ) (ego_pos : ℚ × ℚ) (max_distance : ℚ)
    (pr : ℕ × List HistEntry) : Bool :=
  pr.1 ≠ ego &&
  !pr.2.isEmpty &&
  (match pr.2.getLast? with
   | none => false
   | some st =>
     match st.world_position with
     | none => false
     | some track_pos => distLe ego_pos track_pos max_distance)

/-- Embedding of `EnhancedTracker.get_v2x_relevant_tracks(ego_track_id, max_distance)`
    (lines 239–273).  `ego_track_id = none` models passing `None`
    (the default); `if not ego_track_id:` is Python truthiness, so `0`
    behaves like `None`.  Fail-open branches return every key of the
    history dict, in insertion order. -/
def get_v2x_relevant_tracks (m : VehHist) (ego_track_id : Option ℕ)
    (max_distance : ℚ) : List ℕ :=
  match ego_track_id with
  | none => m.map Prod.fst
  | some ego =>
    if ego = 0 then m.map Prod.fst
    else
      match m.lookup ego with
      | none => m.map Prod.fst
      | some ego_history =>
        match ego_history.getLast? with
        | none => m.map Prod.fst
        | some last =>
          match last.world_position with
          | none => m.map Prod.fst
          | some ego_pos =>
            (m.filter (relevantPred ego ego_pos max_distance)).map Prod.fst

/-! ## Output module (`preception/output_module.py`) -/

/-- The default `class_names` dict of `SumoOutputModule.__init__`
    (lines 20–27). -/
def default_class_names : List (ℕ × String) :=
  [(0, "person"), (1, "car"), (2, "truck"), (3, "bus"),
   (4, "motorcycle"), (5, "bicycle")]

/-- Embedding of `SumoOutputModule.__init__(class_names)`: keeps a supplied non-empty
    dict, otherwise (`None` or empty, both falsy) the default. -/
def SumoOutputModule.init (class_names : Option (List (ℕ × String))) :
    List (ℕ × String) :=
  match class_names with
  | none => default_class_names
  | some cn => if cn.isEmpty then default_class_names else cn

/-- Lookup `self.class_names.get(class_id, "unknown")`. -/
def classNamesGet (cn : List (ℕ × String)) (class_id : ℕ) : String :=
  (cn.lookup class_id).getD "unknown"

/-- A track as accepted by `SumoOutputModule.to_json` (lines 143–154):
    either a ByteTracker-style object (`hasattr(track, 'tlbr')`), whose
    optional telemetry attributes `world_pos` / `speed` / `angle` may or
    may not be present, or an enhanced-track dict, which stores telemetry
    under dictionary keys and therefore has none of those attributes. -/
inductive PyTrack where
  | obj (tlbr : ℚ × ℚ × ℚ × ℚ) (track_id : ℕ) (cls : Option ℕ)
      (score : Option ℚ) (world_pos : Option (ℚ × ℚ)) (speed : Option ℚ)
      (angle : Option ℚ)
  | dict (t : ETrack)
deriving DecidableEq

/-- The per-vehicle record built by `to_json` (lines 156–185); `none` in an
    `Option` field means the key is absent from the emitted dict. -/
structure VehicleData where
  id : ℕ
  bbox : ℤ × ℤ × ℤ × ℤ
  class_name : String
  class_id : ℕ
  confidence : ℚ
  timestamp : ℕ
  position : Option (ℚ × ℚ)
  speed : Option ℚ
  heading : Option ℚ
  v2x_type : Option String
deriving DecidableEq

/-- Embedding of `SumoOutputModule._classify_v2x_message_type(class_id, speed)`
    (lines 197–206). -/
def classify_v2x_message_type (class_id : ℕ) (speed : ℚ) : String :=
  if class_id = 0 then "VRU"
  else if speed < 1 / 2 then "CAM_STATIONARY"
  else if 15 < speed then "CAM_HIGH_SPEED"
  else "CAM_NORMAL"

/-- The body of the `for track in tracks` loop of `to_json`
    (lines 143–185).  For an object track, `hasattr` checks make the
    optional telemetry attributes flow into the record; for a dict track
    every `hasattr(track, ...)` is `False` (dicts carry the telemetry as
    keys, not attributes), so `position`/`speed`/`heading` are never
    emitted and `getattr(track, 'speed', 0)` yields `0`. -/
def track_to_vehicle_data (cn : List (ℕ × String)) (timestep : ℕ)
    (include_v2x_data : Bool) (t : PyTrack) : VehicleData :=
  match t with
  | .obj tlbr track_id cls score world_pos speed angle =>
    match tlbr with
    | (x1, y1, x2, y2) =>
      { id := track_id
        bbox := (pyint x1, pyint y1, pyint x2, pyint y2)
        class_name := classNamesGet cn (cls.getD 1)
        class_id := cls.getD 1
        confidence := score.getD 1
        timestamp := timestep
        position := if include_v2x_data then world_pos else none
        speed := if include_v2x_data then speed else none
        heading := if include_v2x_data then angle else none
        v2x_type :=
          if include_v2x_data then
            some (classify_v2x_message_type (cls.getD 1) (speed.getD 0))
          else none }
  | .dict d =>
    match d.bbox with
    | (x1, y1, x2, y2) =>
      { id := d.track_id
        bbox := (pyint x1, pyint y1, pyint x2, pyint y2)
        class_name := classNamesGet cn d.cls
        class_id := d.cls
        confidence := d.score
        timestamp := timestep
        position := none
        speed := none
        heading := none
        v2x_type :=
          if include_v2x_data then
            some (classify_v2x_message_type d.cls 0)
          else none }

/-- The message dict assembled by `to_json` (lines 188–193), possibly
    extended by `create_v2x_broadcast` (lines 224–237).  The `Option`
    wrappers on the last three fields model key absence; `ego_vehicle` is
    a present key whose value may be `None`. -/
structure V2XMessage where
  timestamp : ℕ
  message_type : String
  vehicles : List VehicleData
  total_vehicles : ℕ
  ego_vehicle : Option (Option ℕ)
  range_km : Option ℚ
  nearby_vehicles : Option (List VehicleData)
deriving DecidableEq

/-- Embedding of `SumoOutputModule.to_json(tracks, timestep, include_v2x_data)`
    (lines 129–195). -/
def to_json (cn : List (ℕ × String)) (tracks : List PyTrack) (timestep : ℕ)
    (include_v2x_data : Bool) : V2XMessage :=
  let vehicles := tracks.map (track_to_vehicle_data cn timestep include_v2x_data)
  { timestamp := timestep
    message_type := "CAM"
    vehicles := vehicles
    total_vehicles := vehicles.length
    ego_vehicle := none
    range_km := none
    nearby_vehicles := none }

/-- Embedding of `SumoOutputModule.create_v2x_broadcast(tracks, ego_vehicle_id)`
    (lines 213–237).  `to_json` is called with its default
    `timestep = 0` and `include_v2x_data = True`; the `nearby_vehicles`
    key is only written under `if ego_vehicle_id:` (Python truthiness, so
    neither for `None` nor for `0`). -/
def create_v2x_broadcast (cn : List (ℕ × String)) (tracks : List PyTrack)
    (ego_vehicle_id : Option ℕ) : V2XMessage :=
  let message := to_json cn tracks 0 true
  { message with
    message_type := "V2X_BROADCAST"
    ego_vehicle := some ego_vehicle_id
    range_km := some 1
    nearby_vehicles :=
      match ego_vehicle_id with
      | none => none
      | some ego =>
        if ego = 0 then none
        else some (message.vehicles.filter (fun v => v.id ≠ ego)) }

/-! ## Derived state-evolution definitions and concrete inputs -/

/-- The per-track view of the history dict. -/
def histOf (m : VehHist) (tid : ℕ) : List HistEntry :=
  (m.lookup tid).getD []

/-- Run a whole sequence of per-step `update_vehicle_history` calls from
    the empty dict the tracker starts with (`self.vehicle_history = {}`).
    Each step is a frame counter together with that step's enhanced
    tracks. -/
def run_history (steps : List (ℕ × List ETrack)) : VehHist :=
  steps.foldl (fun m s => update_vehicle_history s.1 m s.2) []

/-- All states ever recorded for `tid`, in order, with no eviction: the
    append-only log against which FIFO eviction is stated. -/
def history_log (steps : List (ℕ × List ETrack)) (tid : ℕ) : List HistEntry :=
  (steps.map (fun s => (s.2.filter (fun t => t.track_id = tid)).map
    (trackState s.1))).flatten

/-- A matched enhanced-track dict, as produced by
    `enhance_track_with_sumo` for a successful match: telemetry is stored
    under the dict keys `world_position` / `speed` / `angle`. -/
def exMatchedDictTrack : ETrack :=
  { track_id := 42
    bbox := (100, 100, 140, 120)
    score := 1
    cls := 1
    center := (120, 110)
    frame_count := 3
    is_confirmed := true
    track_len := 5
    sumo_id := some "veh_0"
    world_position := some (5, 5)
    speed := 10
    angle := 90
    acceleration := 2
    direction_vector := (0, 1)
    has_sumo_data := true }

/-- A history dict whose track 1 recorded the speeds `0.0` then `10.0`. -/
def exSpeedHist : VehHist :=
  [(1, [⟨1, (0, 0), 0, 0, none⟩, ⟨2, (0, 0), 10, 0, none⟩])]

/-- A history dict where observer 1 has recorded history whose latest
    entry carries no world position, while track 2 has one. -/
def exObserverNoPos : VehHist :=
  [(1, [⟨1, (0, 0), 0, 0, none⟩]), (2, [⟨1, (0, 0), 0, 0, some (0, 0)⟩])]

/-- A history dict keyed by track id `0` (a falsy id in Python), with full
    position data, plus a far-away track 5. -/
def exHistZeroId : VehHist :=
  [(0, [⟨1, (0, 0), 0, 0, some (0, 0)⟩]),
   (5, [⟨1, (0, 0), 0, 0, some (1000, 1000)⟩])]

/-- A history dict for the relevance-filter witness: observer 1 at
    `(0,0)`, track 2 at `(3,4)` (distance 5), track 3 without a world
    position, track 4 at `(1000,0)` (distance 1000). -/
def exRelHist : VehHist :=
  [(1, [⟨1, (0, 0), 0, 0, some (0, 0)⟩]),
   (2, [⟨1, (0, 0), 0, 0, some (3, 4)⟩]),
   (3, [⟨1, (0, 0), 0, 0, none⟩]),
   (4, [⟨1, (0, 0), 0, 0, some (1000, 0)⟩])]

/-! ## Helper lemmas -/

theorem pyint_eq_floor {q : ℚ} (h : 0 ≤ q) : pyint q = ⌊q⌋ := by
  simp [pyint, not_lt.2 h]

/-- Sanity: `distLe` coincides with the square-root comparison the Python
    code performs over the reals. -/
theorem distLe_iff_sqrt_le (p q : ℚ × ℚ) (d : ℚ) :
    distLe p q d = true ↔
      Real.sqrt ((((p.1 : ℝ)) - q.1) ^ 2 + (((p.2 : ℝ)) - q.2) ^ 2) ≤ (d : ℝ) := by
  rw [Real.sqrt_le_iff]
  simp only [distLe, decide_eq_true_eq]
  constructor
  · rintro ⟨hd, hle⟩
    exact ⟨by exact_mod_cast hd, by exact_mod_cast hle⟩
  · rintro ⟨hd, hle⟩
    exact ⟨by exact_mod_cast hd, by exact_mod_cast hle⟩

/-! ## C10 — V2X message-type classification order -/

/-- C10: for every `class_id` and speed, the `v2x_type` classification is
    first-match-wins: the pedestrian class id (0) yields `VRU` whatever the
    speed; otherwise `speed < 0.5` yields `CAM_STATIONARY`; otherwise
    `speed > 15` yields `CAM_HIGH_SPEED`; otherwise `CAM_NORMAL`. -/
theorem C10_classification_order (class_id : ℕ) (speed : ℚ) :
    (classify_v2x_message_type class_id speed = "VRU" ↔ class_id = 0) ∧
    (classify_v2x_message_type class_id speed = "CAM_STATIONARY" ↔
      class_id ≠ 0 ∧ speed < 1 / 2) ∧
    (classify_v2x_message_type class_id speed = "CAM_HIGH_SPEED" ↔
      class_id ≠ 0 ∧ ¬speed < 1 / 2 ∧ 15 < speed) ∧
    (classify_v2x_message_type class_id speed = "CAM_NORMAL" ↔
      class_id ≠ 0 ∧ ¬speed < 1 / 2 ∧ ¬15 < speed) := by
  unfold classify_v2x_message_type
  split_ifs with h1 h2 h3 <;>
    refine ⟨?_, ?_, ?_, ?_⟩ <;> simp_all

/-! ## C9 — world-to-pixel mapping -/

/-- C9: for `(x, y)` inside a non-degenerate world box and a positive
    image size, `world_to_pixel` returns
    `(⌊nx·(W-1)⌋, ⌊(1-ny)·(H-1)⌋)` with `nx = (x-xmin)/(xmax-xmin)` and
    `ny = (y-ymin)/(ymax-ymin)` (Python's `int` truncation agrees with
    `⌊·⌋` because both arguments are nonnegative there).  Scenario A —
    box `(0,0,100,100)`, image `(100,100)`, vehicle at `(50,50)` mapping
    to pixel `(49,49)` — is the witness below. -/
theorem C9_world_to_pixel_floor (xmin ymin xmax ymax x y : ℚ) (W H : ℕ)
    (m : ℚ) (hxx : xmin < xmax) (hyy : ymin < ymax)
    (hx1 : xmin ≤ x) (hx2 : x ≤ xmax) (hy1 : ymin ≤ y) (hy2 : y ≤ ymax)
    (hW : 1 ≤ W) (hH : 1 ≤ H) :
    (SumoToDetections.init (some (xmin, ymin, xmax, ymax)) (W, H) m).world_to_pixel
        x y =
      some (⌊(x - xmin) / (xmax - xmin) * ((W : ℚ) - 1)⌋,
            ⌊(1 - (y - ymin) / (ymax - ymin)) * ((H : ℚ) - 1)⌋) := by
  have hdx : xmax - xmin ≠ 0 := sub_ne_zero.2 (ne_of_gt hxx)
  have hdy : ymax - ymin ≠ 0 := sub_ne_zero.2 (ne_of_gt hyy)
  have hnx : 0 ≤ (x - xmin) / (xmax - xmin) :=
    div_nonneg (sub_nonneg.2 hx1) (le_of_lt (sub_pos.2 hxx))
  have hny : (y - ymin) / (ymax - ymin) ≤ 1 :=
    (div_le_one (sub_pos.2 hyy)).2 (sub_le_sub_right hy2 ymin)
  have hW1 : (0 : ℚ) ≤ (W : ℚ) - 1 := by
    have : (1 : ℚ) ≤ (W : ℚ) := by exact_mod_cast hW
    linarith
  have hH1 : (0 : ℚ) ≤ (H : ℚ) - 1 := by
    have : (1 : ℚ) ≤ (H : ℚ) := by exact_mod_cast hH
    linarith
  unfold SumoToDetections.world_to_pixel
  simp only [SumoToDetections.init]
  rw [if_neg (by push_neg; exact ⟨hdx, hdy⟩)]
  have e1 : pyint ((x - xmin) / (xmax - xmin) * ((W : ℚ) - 1)) =
      ⌊(x - xmin) / (xmax - xmin) * ((W : ℚ) - 1)⌋ :=
    pyint_eq_floor (mul_nonneg hnx hW1)
  have e2 : pyint ((1 - (y - ymin) / (ymax - ymin)) * ((H : ℚ) - 1)) =
      ⌊(1 - (y - ymin) / (ymax - ymin)) * ((H : ℚ) - 1)⌋ :=
    pyint_eq_floor (mul_nonneg (by linarith) hH1)
  rw [e1, e2]

/-- Witness for C9: Scenario A.  World box `(0,0,100,100)`, image
    `(100,100)`, vehicle at world `(50,50)` maps to pixel `(49,49)`. -/
theorem C9_world_to_pixel_floor_witness :
    (SumoToDetections.init (some (0, 0, 100, 100)) (100, 100) 2).world_to_pixel
      50 50 = some (49, 49) := by
  have h := C9_world_to_pixel_floor 0 0 100 100 50 50 100 100 2
    (by norm_num) (by norm_num) (by norm_num) (by norm_num) (by norm_num)
    (by norm_num) (by norm_num) (by norm_num)
  rw [h]
  norm_num

/-! ## C4 — degenerate world bounding box -/

/-- C4 counterexample: the claim says a degenerate world box
    (`xmax == xmin`) makes construction fail with `InvalidBoundsError`.
    In the code the constructor performs no validation at all (the
    repository defines no `InvalidBoundsError`): constructing with the
    degenerate box `(0, 0, 0, 100)` completes normally, storing the box
    unchanged, and the division-by-zero failure surfaces only at the
    first `world_to_pixel` call. -/
theorem C4_no_validation_at_init_counterexample :
    SumoToDetections.init (some (0, 0, 0, 100)) (800, 800) 2 =
      { world_bbox := some (0, 0, 0, 100), image_w := 800, image_h := 800,
        default_bbox_size_m := 2, computed := false } ∧
    (SumoToDetections.init (some (0, 0, 0, 100)) (800, 800) 2).world_to_pixel
      5 5 = none := by
  refine ⟨rfl, ?_⟩
  simp [SumoToDetections.world_to_pixel, SumoToDetections.init]

/-- C4 amended: constructing the mapper with a degenerate world box
    (`xmax = xmin` or `ymax = ymin`) succeeds — the constructor merely
    stores its arguments, performing no bounds validation — and the
    degenerate box instead causes a division-by-zero failure at every
    later `world_to_pixel` conversion. -/
theorem C4_degenerate_box_fails_at_conversion
    (xmin ymin xmax ymax : ℚ) (W H : ℕ) (m x y : ℚ)
    (h : xmax = xmin ∨ ymax = ymin) :
    SumoToDetections.init (some (xmin, ymin, xmax, ymax)) (W, H) m =
      { world_bbox := some (xmin, ymin, xmax, ymax), image_w := W,
        image_h := H, default_bbox_size_m := m, computed := false } ∧
    (SumoToDetections.init (some (xmin, ymin, xmax, ymax)) (W, H) m).world_to_pixel
      x y = none := by
  refine ⟨rfl, ?_⟩
  unfold SumoToDetections.world_to_pixel
  simp only [SumoToDetections.init]
  rcases h with h | h <;> simp [h]

/-- Witness for C4: the degenerate box `(0, 0, 0, 100)`. -/
theorem C4_degenerate_box_fails_at_conversion_witness :
    (SumoToDetections.init (some (0, 0, 0, 100)) (800, 800) 2).world_to_pixel
      7 7 = none :=
  (C4_degenerate_box_fails_at_conversion 0 0 0 100 800 800 2 7 7
    (Or.inl rfl)).2

/-! ## C1 — the matcher's distance is a random placeholder -/

/-- C1 (code bug): the claim — and the code's own comments, which call the
    distance a "placeholder" that "would need coordinate conversion" —
    require the candidate distance to be the pixel-space Euclidean
    distance from the track's bbox centre to the vehicle's projected
    position.  The code instead draws `np.random.uniform(0, 100)` and
    ignores both positions.  Concretely: the track has bbox centre
    `(10, 10)`; vehicle `A` sits exactly at the centre (true distance 0,
    so the claim forces `A` to be selected), vehicle `B` sits about 1400
    away; yet with random draws `60` then `10` the matcher selects `B`
    (first conjunct).  The second conjunct shows the distance function is
    oblivious to both of its geometric arguments, and the third shows
    that with equal draws (an exact tie) the first-listed vehicle wins —
    the selection logic itself is min-then-first-on-ties over the draws. -/
theorem C1_random_distance_placeholder :
    match_track_to_sumo_vehicle (fun i => if i = 0 then 60 else 10) []
        ⟨(0, 0, 20, 20), 1, 1, none, true, 3⟩
        [⟨"A", 10, 10, 0, 0⟩, ⟨"B", 1000, 1000, 0, 0⟩] =
      some ⟨"B", 1000, 1000, 0, 0⟩ ∧
    (∀ (c₁ c₂ : ℚ × ℚ) (v₁ v₂ : SumoVehicle),
      calculate_track_vehicle_distance 60 c₁ v₁ =
        calculate_track_vehicle_distance 60 c₂ v₂) ∧
    match_track_to_sumo_vehicle (fun _ => 10) []
        ⟨(0, 0, 20, 20), 1, 1, none, true, 3⟩
        [⟨"A", 10, 10, 0, 0⟩, ⟨"B", 1000, 1000, 0, 0⟩] =
      some ⟨"A", 10, 10, 0, 0⟩ := by
  refine ⟨by decide, fun c₁ c₂ v₁ v₂ => rfl, by decide⟩

/-! ## C3 — sticky-mapping persistence -/

/-- C3: if the sticky mapping sends the track's id to `vid` and a vehicle
    with id `vid` is present in this step's vehicle list, the matcher
    returns that vehicle directly — for every random-draw oracle `draws`
    (no geometric computation touches the result) and whatever the
    vehicle's new position is. -/
theorem C3_sticky_mapping_reuse (draws : ℕ → ℚ) (mapping : List (ℕ × String))
    (track : ByteTrack) (sumo_vehicles : List SumoVehicle) (vid : String)
    (v : SumoVehicle)
    (hmap : mapping.lookup track.track_id = some vid)
    (hfind : sumo_vehicles.find? (fun w => w.id == vid) = some v) :
    match_track_to_sumo_vehicle draws mapping track sumo_vehicles = some v := by
  unfold match_track_to_sumo_vehicle
  simp [hmap, hfind]

/-- Witness for C3: track 7 is mapped to `"veh0"`, which is present (at a
    fresh position); the matcher returns it. -/
theorem C3_sticky_mapping_reuse_witness :
    match_track_to_sumo_vehicle (fun _ => 0) [(7, "veh0")]
        ⟨(0, 0, 2, 2), 7, 1, none, true, 1⟩
        [⟨"veh0", 123, 456, 3, 90⟩] = some ⟨"veh0", 123, 456, 3, 90⟩ :=
  C3_sticky_mapping_reuse _ _ _ _ "veh0" _ (by decide) (by decide)

/-! ## C5 — dict-format tracks lose their telemetry in `to_json` -/

/-- C5 (code bug): `to_json` gates the optional `position` / `speed` /
    `heading` fields behind `hasattr(track, 'world_pos')` etc., but the
    tracks the pipeline supplies are the enhanced-track dicts, which store
    telemetry under dict *keys* (`world_position`, `speed`, `angle`) — a
    dict has none of those attributes (and nothing in the repository ever
    sets a `world_pos` attribute).  So a matched track that carries full
    telemetry is emitted without any of the optional fields, and its
    `v2x_type` is computed with `getattr(track, 'speed', 0) = 0`:
    `exMatchedDictTrack` has speed 10 (would be `CAM_NORMAL`) yet is
    classified `CAM_STATIONARY`. -/
theorem C5_dict_tracks_lose_telemetry :
    exMatchedDictTrack.has_sumo_data = true ∧
    exMatchedDictTrack.world_position = some (5, 5) ∧
    exMatchedDictTrack.speed = 10 ∧
    exMatchedDictTrack.angle = 90 ∧
    ((to_json default_class_names [PyTrack.dict exMatchedDictTrack] 7
          true).vehicles.map
        (fun v => (v.id, v.position, v.speed, v.heading, v.v2x_type))) =
      [(42, none, none, none, some "CAM_STATIONARY")] ∧
    classify_v2x_message_type exMatchedDictTrack.cls exMatchedDictTrack.speed =
      "CAM_NORMAL" := by
  refine ⟨rfl, rfl, rfl, rfl, ?_, ?_⟩
  · norm_num [to_json, track_to_vehicle_data, exMatchedDictTrack,
      classNamesGet, default_class_names, classify_v2x_message_type]
  · norm_num [classify_v2x_message_type, exMatchedDictTrack]

/-! ## C7 — broadcast assembly -/

/-- C7 counterexample: the claim says `create_broadcast` attaches a
    `nearby` list for *every* observer id.  For the falsy observer id `0`
    (and likewise for `None`), the `if ego_vehicle_id:` guard skips the
    `nearby_vehicles` key entirely, even though the claim's list — all
    emitted entries with a different id, here one entry — is non-empty. -/
theorem C7_falsy_observer_counterexample :
    (create_v2x_broadcast default_class_names [PyTrack.dict exMatchedDictTrack]
        (some 0)).nearby_vehicles = none ∧
    ((to_json default_class_names [PyTrack.dict exMatchedDictTrack] 0
          true).vehicles.filter (fun v => v.id ≠ 0)).length = 1 := by
  exact ⟨rfl, rfl⟩

/-- C7 amended: for every track list and every truthy observer id
    (`ego ≠ 0`, not `None`), `create_v2x_broadcast` sets
    `message_type = "V2X_BROADCAST"`, attaches the constant range value
    `1.0`, echoes the observer id, and attaches a `nearby_vehicles` list
    containing exactly the emitted entries whose id differs from the
    observer's — with no distance filtering.  For a falsy observer id
    (`None` or `0`) the `nearby_vehicles` key is not attached at all. -/
theorem C7_broadcast_characterization (cn : List (ℕ × String))
    (tracks : List PyTrack) (ego : ℕ) (hego : ego ≠ 0) :
    (create_v2x_broadcast cn tracks (some ego)).message_type =
      "V2X_BROADCAST" ∧
    (create_v2x_broadcast cn tracks (some ego)).range_km = some 1 ∧
    (create_v2x_broadcast cn tracks (some ego)).ego_vehicle = some (some ego) ∧
    (create_v2x_broadcast cn tracks none).nearby_vehicles = none ∧
    (create_v2x_broadcast cn tracks (some 0)).nearby_vehicles = none ∧
    (create_v2x_broadcast cn tracks (some ego)).nearby_vehicles =
      some ((to_json cn tracks 0 true).vehicles.filter (fun v => v.id ≠ ego)) ∧
    (∀ v, v ∈ (to_json cn tracks 0 true).vehicles.filter (fun v => v.id ≠ ego) ↔
      v ∈ (create_v2x_broadcast cn tracks (some ego)).vehicles ∧ v.id ≠ ego) := by
  refine ⟨rfl, rfl, rfl, rfl, rfl, ?_, ?_⟩
  · simp [create_v2x_broadcast, hego]
  · intro v
    have hveh : (create_v2x_broadcast cn tracks (some ego)).vehicles =
        (to_json cn tracks 0 true).vehicles := rfl
    rw [hveh, List.mem_filter]
    simp

/-- Witness for C7: observer id 5 with an empty track list — the
    broadcast attaches `nearby_vehicles = some []` and the broadcast
    message type. -/
theorem C7_broadcast_characterization_witness :
    (create_v2x_broadcast default_class_names [] (some 5)).nearby_vehicles =
      some [] ∧
    (create_v2x_broadcast default_class_names [] (some 5)).message_type =
      "V2X_BROADCAST" := by
  have h := C7_broadcast_characterization default_class_names [] 5 (by decide)
  exact ⟨by rw [h.2.2.2.2.2.1]; rfl, h.1⟩

/-! ## C8 — acceleration from speed history -/

/-- C8 counterexample: Scenario D claims that the speed history
    `[0.0, 10.0]` (step length 0.1) yields acceleration `100.0`.  In the
    code `previous_speed` is `history[-1]` — the *latest* recorded entry,
    `10.0` — so with the current speed `10.0` (the latest measurement) the
    result is `(10 - 10)/0.1 = 0`, not `100`. -/
theorem C8_scenario_counterexample :
    calculate_acceleration exSpeedHist 1 10 = 0 ∧ (0 : ℚ) ≠ 100 := by
  constructor
  · norm_num [calculate_acceleration, exSpeedHist]
  · norm_num

/-- C8 amended: with at least two recorded history entries,
    `acceleration(track_id, current_speed)` is
    `(current_speed - previous_speed)/0.1` where `previous_speed` is the
    most recently recorded entry's speed; with fewer than two entries
    (or an unknown track) it is 0.  For the history speeds `[0.0, 10.0]`
    the value `100.0` arises with `current_speed = 20.0`
    (`(20 - 10)/0.1`), not with the current speed `10.0`. -/
theorem C8_acceleration_formula :
    (∀ (m : VehHist) (tid : ℕ) (cur : ℚ) (h : List HistEntry)
        (prev : HistEntry),
      m.lookup tid = some h → 2 ≤ h.length → h.getLast? = some prev →
      calculate_acceleration m tid cur = (cur - prev.speed) / (1 / 10)) ∧
    (∀ (m : VehHist) (tid : ℕ) (cur : ℚ),
      m.lookup tid = none → calculate_acceleration m tid cur = 0) ∧
    (∀ (m : VehHist) (tid : ℕ) (cur : ℚ) (h : List HistEntry),
      m.lookup tid = some h → h.length < 2 →
      calculate_acceleration m tid cur = 0) ∧
    calculate_acceleration exSpeedHist 1 20 = 100 := by
  refine ⟨?_, ?_, ?_, ?_⟩
  · intro m tid cur h prev hm hlen hlast
    unfold calculate_acceleration
    rw [hm]
    simp only [hlast]
    rw [if_neg (by omega)]
  · intro m tid cur hm
    unfold calculate_acceleration
    rw [hm]
  · intro m tid cur h hm hlen
    unfold calculate_acceleration
    rw [hm]
    simp [hlen]
  · norm_num [calculate_acceleration, exSpeedHist]

/-- Witness for C8: applying the general formula to the concrete history
    with speeds `[0.0, 10.0]` and current speed `0`:
    `(0 - 10)/0.1 = -100`. -/
theorem C8_acceleration_formula_witness :
    calculate_acceleration exSpeedHist 1 0 = -100 := by
  have h := C8_acceleration_formula.1 exSpeedHist 1 0
    [⟨1, (0, 0), 0, 0, none⟩, ⟨2, (0, 0), 10, 0, none⟩]
    ⟨2, (0, 0), 10, 0, none⟩ rfl (by norm_num) rfl
  rw [h]
  norm_num

/-! ## C2 — bounded history with FIFO eviction -/

theorem lookup_cons_pair (k a : ℕ) (b : List HistEntry) (l : VehHist) :
    ((a, b) :: l).lookup k = if k = a then some b else l.lookup k := by
  by_cases h : k = a
  · simp [List.lookup, h]
  · have hb : (k == a) = false := beq_eq_false_iff_ne.2 h
    simp [List.lookup, h, hb]

theorem lookup_setKey_self (m : VehHist) (k : ℕ) (v : List HistEntry) :
    (setKey m k v).lookup k = some v := by
  induction m with
  | nil => simp [setKey, lookup_cons_pair]
  | cons p rest ih =>
    rcases p with ⟨a, b⟩
    by_cases h : a = k
    · simp [setKey, h, lookup_cons_pair]
    · simp only [setKey]
      rw [if_neg h, lookup_cons_pair, if_neg (fun hh => h hh.symm)]
      exact ih

theorem lookup_setKey_ne (m : VehHist) (k : ℕ) (v : List HistEntry) (j : ℕ)
    (hj : j ≠ k) : (setKey m k v).lookup j = m.lookup j := by
  induction m with
  | nil => simp [setKey, lookup_cons_pair, hj]
  | cons p rest ih =>
    rcases p with ⟨a, b⟩
    by_cases h : a = k
    · subst h
      simp [setKey, lookup_cons_pair, hj]
    · simp only [setKey]
      rw [if_neg h, lookup_cons_pair, lookup_cons_pair]
      by_cases hja : j = a
      · simp [hja]
      · simp [hja, ih]

theorem histOf_setKey_self (m : VehHist) (k : ℕ) (v : List HistEntry) :
    histOf (setKey m k v) k = v := by
  simp [histOf, lookup_setKey_self]

theorem histOf_setKey_ne (m : VehHist) (k : ℕ) (v : List HistEntry) (j : ℕ)
    (hj : j ≠ k) : histOf (setKey m k v) j = histOf m j := by
  simp [histOf, lookup_setKey_ne m k v j hj]

/-- The per-track push is exactly "keep the last 30 of the appended
    sequence". -/
theorem history_push_eq_rtake (h : List HistEntry) (e : HistEntry) :
    history_push h e = (h ++ [e]).rtake 30 := by
  simp only [history_push, List.rtake]
  split_ifs with h30
  · rfl
  · rw [Nat.sub_eq_zero_of_le (le_of_not_lt h30), List.drop_zero]

/-- Truncating before appending does not change the last-`n` suffix. -/
theorem rtake_append_rtake (l l₂ : List HistEntry) (n : ℕ) :
    (l.rtake n ++ l₂).rtake n = (l ++ l₂).rtake n := by
  simp only [List.rtake_eq_reverse_take_reverse, List.reverse_append,
    List.reverse_reverse, List.take_append_eq_append_take, List.take_take,
    List.length_reverse]
  rw [min_eq_left (Nat.sub_le n l₂.length)]

theorem foldl_push_rtake (es : List HistEntry) :
    ∀ log : List HistEntry,
      es.foldl history_push (log.rtake 30) = (log ++ es).rtake 30 := by
  induction es with
  | nil => intro log; simp
  | cons e es ih =>
    intro log
    rw [List.foldl_cons, history_push_eq_rtake, rtake_append_rtake,
      ih (log ++ [e])]
    simp

/-- Effect of one `update_vehicle_history` call on one track's history:
    fold the pushed states of the tracks carrying that id, in order. -/
theorem histOf_update (fc : ℕ) (tracks : List ETrack) (m : VehHist) (tid : ℕ) :
    histOf (update_vehicle_history fc m tracks) tid =
      ((tracks.filter (fun t => t.track_id = tid)).map (trackState fc)).foldl
        history_push (histOf m tid) := by
  induction tracks generalizing m with
  | nil => rfl
  | cons t ts ih =>
    have hstep : update_vehicle_history fc m (t :: ts) =
        update_vehicle_history fc
          (setKey m t.track_id
            (history_push (histOf m t.track_id) (trackState fc t))) ts := rfl
    rw [hstep, ih]
    by_cases h : t.track_id = tid
    · subst h
      rw [List.filter_cons_of_pos (by simp), List.map_cons, List.foldl_cons,
        histOf_setKey_self]
    · rw [List.filter_cons_of_neg (by simp [h]),
        histOf_setKey_ne _ _ _ _ (fun hh => h hh.symm)]

theorem histOf_run_from (steps : List (ℕ × List ETrack)) :
    ∀ (m : VehHist) (tid : ℕ),
      histOf (steps.foldl (fun m s => update_vehicle_history s.1 m s.2) m) tid =
        (history_log steps tid).foldl history_push (histOf m tid) := by
  induction steps with
  | nil => intro m tid; rfl
  | cons s ss ih =>
    intro m tid
    rw [List.foldl_cons, ih, histOf_update, ← List.foldl_append]
    simp [history_log]

/-- C2: after every sequence of history updates (starting from the empty
    dict) and for every track id, the stored history is exactly the last
    30 entries of the append-only log of recorded states — so its length
    never exceeds the cap 30, and once the cap is exceeded the oldest
    entries are the ones evicted (the result is a suffix of the log). -/
theorem C2_history_cap_fifo (steps : List (ℕ × List ETrack)) (tid : ℕ) :
    (histOf (run_history steps) tid).length ≤ 30 ∧
    histOf (run_history steps) tid = (history_log steps tid).rtake 30 := by
  have hmain : histOf (run_history steps) tid =
      (history_log steps tid).rtake 30 := by
    have h := histOf_run_from steps [] tid
    have h0 : histOf ([] : VehHist) tid = (([] : List HistEntry)).rtake 30 := rfl
    rw [run_history, h, h0, foldl_push_rtake]
    simp
  refine ⟨?_, hmain⟩
  rw [hmain]
  simp only [List.rtake, List.length_drop]
  omega

/-! ## C6 — V2X relevance filter -/

/-- C6 counterexample.  First conjunct: observer 1 is known and has
    recorded history, so the claim's filtering branch applies — the result
    must contain only *other* track ids (and only those with a known world
    position within range) — yet because the observer's latest entry
    carries no world position the code fail-opens and returns all keys,
    the observer's own id 1 included.  Second conjunct: observer id 0 is
    known, with history and a world position at `(0,0)`, and the only
    other track sits 1000√2 away with `max_distance = 1`; the claim
    demands the empty result, but `if not ego_track_id:` treats the id 0
    as falsy and the code again returns all keys. -/
theorem C6_fail_open_counterexample :
    get_v2x_relevant_tracks exObserverNoPos (some 1) 100 = [1, 2] ∧
    get_v2x_relevant_tracks exHistZeroId (some 0) 1 = [0, 5] := by
  exact ⟨rfl, rfl⟩

theorem mem_of_lookup_eq_some {m : VehHist} {k : ℕ} {v : List HistEntry}
    (h : m.lookup k = some v) : (k, v) ∈ m := by
  induction m with
  | nil => simp [List.lookup] at h
  | cons p rest ih =>
    rcases p with ⟨a, b⟩
    rw [lookup_cons_pair] at h
    by_cases hk : k = a
    · rw [if_pos hk] at h
      cases h
      subst hk
      exact List.mem_cons_self _ _
    · rw [if_neg hk] at h
      exact List.mem_cons_of_mem _ (ih h)

theorem lookup_eq_some_of_mem {m : VehHist}
    (hnd : (m.map Prod.fst).Nodup) {k : ℕ} {v : List HistEntry}
    (h : (k, v) ∈ m) : m.lookup k = some v := by
  induction m with
  | nil => simp at h
  | cons p rest ih =>
    rcases p with ⟨a, b⟩
    rw [lookup_cons_pair]
    rcases List.mem_cons.1 h with h1 | h1
    · obtain ⟨hk, hv⟩ := Prod.mk.injEq .. ▸ h1
      rw [if_pos hk, hv]
    · have hk : k ≠ a := by
        intro hk
        subst hk
        have hmem : k ∈ rest.map Prod.fst :=
          List.mem_map_of_mem Prod.fst h1
        rw [List.map_cons, List.nodup_cons] at hnd
        exact hnd.1 hmem
      rw [if_neg hk]
      rw [List.map_cons, List.nodup_cons] at hnd
      exact ih hnd.2 h1

/-- When the observer is truthy, known, and its latest entry has a world
    position, `get_v2x_relevant_tracks` takes the filtering branch. -/
theorem relevant_tracks_filter_branch (m : VehHist) (ego : ℕ)
    (hego : ego ≠ 0) (h : List HistEntry) (st : HistEntry) (p : ℚ × ℚ)
    (maxd : ℚ) (hm : m.lookup ego = some h) (hlast : h.getLast? = some st)
    (hpos : st.world_position = some p) :
    get_v2x_relevant_tracks m (some ego) maxd =
      (m.filter (relevantPred ego p maxd)).map Prod.fst := by
  simp only [get_v2x_relevant_tracks]
  rw [if_neg hego, hm]
  simp only [hlast, hpos]

/-- Unfolding of the per-entry relevance predicate. -/
theorem relevantPred_eq_true_iff (ego : ℕ) (ego_pos : ℚ × ℚ) (maxd : ℚ)
    (pr : ℕ × List HistEntry) :
    relevantPred ego ego_pos maxd pr = true ↔
      pr.1 ≠ ego ∧ ∃ st tp, pr.2.getLast? = some st ∧
        st.world_position = some tp ∧ distLe ego_pos tp maxd = true := by
  rcases pr with ⟨a, h⟩
  unfold relevantPred
  cases hgl : h.getLast? with
  | none => simp [hgl]
  | some st =>
    have hne : h.isEmpty = false := by
      cases h
      · simp at hgl
      · rfl
    cases hwp : st.world_position with
    | none => simp [hgl, hwp, hne]
    | some tp =>
      simp only [hgl, hwp, hne]
      simp [hgl, hwp, hne]
      refine fun _ => ⟨fun hd => ⟨tp.1, tp.2, rfl, hd⟩, ?_⟩
      rintro ⟨x, y, rfl, hd⟩
      exact hd

/-- C6 amended: the fail-open policy — returning every known track id,
    the observer included — applies not only when the observer id is
    unknown or has no recorded history, but also when its latest history
    entry lacks a world position, and (Python truthiness) when the
    observer id is `None` or `0`.  Only otherwise does the filter branch
    run, and there the result contains exactly the other track ids whose
    latest history entry carries a world position within Euclidean
    `max_distance` of the observer's; tracks whose latest entry lacks a
    world position (or with empty history) are excluded. -/
theorem C6_relevant_tracks_characterization (m : VehHist) (maxd : ℚ) :
    (get_v2x_relevant_tracks m none maxd = m.map Prod.fst) ∧
    (get_v2x_relevant_tracks m (some 0) maxd = m.map Prod.fst) ∧
    (∀ oid, m.lookup oid = none →
      get_v2x_relevant_tracks m (some oid) maxd = m.map Prod.fst) ∧
    (∀ oid h, m.lookup oid = some h → h.getLast? = none →
      get_v2x_relevant_tracks m (some oid) maxd = m.map Prod.fst) ∧
    (∀ oid h st, m.lookup oid = some h → h.getLast? = some st →
      st.world_position = none →
      get_v2x_relevant_tracks m (some oid) maxd = m.map Prod.fst) ∧
    (∀ oid h st p, oid ≠ 0 → (m.map Prod.fst).Nodup →
      m.lookup oid = some h → h.getLast? = some st →
      st.world_position = some p →
      ∀ tid, tid ∈ get_v2x_relevant_tracks m (some oid) maxd ↔
        tid ≠ oid ∧ ∃ h' st' p', m.lookup tid = some h' ∧
          h'.getLast? = some st' ∧ st'.world_position = some p' ∧
          distLe p p' maxd = true) := by
  refine ⟨rfl, ?_, ?_, ?_, ?_, ?_⟩
  · simp [get_v2x_relevant_tracks]
  · intro oid hm
    by_cases h0 : oid = 0
    · simp [get_v2x_relevant_tracks, h0]
    · simp only [get_v2x_relevant_tracks]
      rw [if_neg h0, hm]
  · intro oid h hm hlast
    by_cases h0 : oid = 0
    · simp [get_v2x_relevant_tracks, h0]
    · simp only [get_v2x_relevant_tracks]
      rw [if_neg h0, hm]
      simp only [hlast]
  · intro oid h st hm hlast hpos
    by_cases h0 : oid = 0
    · simp [get_v2x_relevant_tracks, h0]
    · simp only [get_v2x_relevant_tracks]
      rw [if_neg h0, hm]
      simp only [hlast, hpos]
  · intro oid h st p h0 hnd hm hlast hpos tid
    rw [relevant_tracks_filter_branch m oid h0 h st p maxd hm hlast hpos]
    rw [List.mem_map]
    constructor
    · rintro ⟨pr, hpr, rfl⟩
      rw [List.mem_filter] at hpr
      obtain ⟨hmem, hf⟩ := hpr
      rw [relevantPred_eq_true_iff] at hf
      obtain ⟨hne, st', tp, hgl, hwp, hd⟩ := hf
      exact ⟨hne, pr.2, st', tp, lookup_eq_some_of_mem hnd
        (by rcases pr with ⟨a, b⟩; exact hmem), hgl, hwp, hd⟩
    · rintro ⟨hne, h', st', p', hm', hgl, hwp, hd⟩
      refine ⟨(tid, h'), ?_, rfl⟩
      rw [List.mem_filter]
      refine ⟨mem_of_lookup_eq_some hm', ?_⟩
      rw [relevantPred_eq_true_iff]
      exact ⟨hne, st', p', hgl, hwp, hd⟩

/-- Witness for C6: in `exRelHist`, observer 1 sits at `(0,0)` and track 2
    at `(3,4)` — distance 5 ≤ 100 — so track 2 is relevant. -/
theorem C6_relevant_tracks_characterization_witness :
    2 ∈ get_v2x_relevant_tracks exRelHist (some 1) 100 := by
  have h := (C6_relevant_tracks_characterization exRelHist 100).2.2.2.2.2
    1 [⟨1, (0, 0), 0, 0, some (0, 0)⟩] ⟨1, (0, 0), 0, 0, some (0, 0)⟩ (0, 0)
    (by decide) (by decide) rfl rfl rfl 2
  exact h.2 ⟨by decide, [⟨1, (0, 0), 0, 0, some (3, 4)⟩],
    ⟨1, (0, 0), 0, 0, some (3, 4)⟩, (3, 4), rfl, rfl, rfl,
    by norm_num [distLe]⟩
